import Mathlib

/-!
Verification of the proxy-aware resilient request layer of the repository
(source file src/unnamed/part_001, a userscript proxy module).

The JavaScript source is shallowly embedded: JS numbers that hold integral
millisecond timestamps, latencies and counters are modelled as Nat or Int;
the weight computation of selectRandomProxy and the running-average
computation of updateProxyStats are modelled over exact rationals.
Fallible JS code (throwing parseProxy) is modelled with Except.
-/

namespace AteexProxy

/-- Splitting a character list at every occurrence of sep, keeping empty
groups, as JS String.prototype.split does with a one-character separator. -/
def splitChar (sep : Char) : List Char → List (List Char)
  | [] => [[]]
  | c :: cs =>
    let r := splitChar sep cs
    if c = sep then [] :: r
    else
      match r with
      | [] => [[c]]
      | g :: gs => (c :: g) :: gs

/-- JS String.prototype.split with a one-character separator (the module
only ever splits on ":"). Agrees with String.splitOn but is structurally
recursive so concrete instances evaluate inside the kernel. -/
def jsSplit (s : String) (sep : Char) : List String :=
  (splitChar sep s.data).map (fun cs => { data := cs })

/-- Model of the JS parseInt builtin restricted to the decimal inputs this
module feeds it: an optional sign followed by a longest prefix of decimal
digits; no digits yields NaN, modelled as none. Trailing non-digit
characters are ignored, as parseInt does. -/
def parseDigits (cs : List Char) : Option Nat :=
  let ds := cs.takeWhile Char.isDigit
  if ds.isEmpty then none
  else some (ds.foldl (fun a c => a * 10 + (c.toNat - 48)) 0)

/-- JS parseInt (radix 10), returning none for NaN. -/
def parseIntJS (s : String) : Option Int :=
  match s.data with
  | '-' :: rest => (parseDigits rest).map (fun n => -(n : Int))
  | '+' :: rest => (parseDigits rest).map (fun n => (n : Int))
  | cs => (parseDigits cs).map (fun n => (n : Int))

/-- JS template interpolation of a number that may be NaN. -/
def intToStr : Option Int → String
  | none => "NaN"
  | some i => toString i

/-- Parsed proxy endpoint, mirroring the object literals built by parseProxy:
host, port (parseInt of the second field, none = NaN), optional
username/password (null in the two-field format), and the canonical key
`proxy` built from the raw first two fields. -/
structure Endpoint where
  host : String
  port : Option Int
  username : Option String
  password : Option String
  proxy : String
deriving DecidableEq, Repr

/-- parseProxy from the source: splits on ":" and accepts exactly the
two-field and four-field formats, throwing (Except.error) otherwise. -/
def parseProxy (s : String) : Except String Endpoint :=
  let parts := jsSplit s ':'
  if parts.length = 2 then
    .ok { host := parts.getD 0 "", port := parseIntJS (parts.getD 1 ""),
          username := none, password := none,
          proxy := parts.getD 0 "" ++ ":" ++ parts.getD 1 "" }
  else if parts.length = 4 then
    .ok { host := parts.getD 0 "", port := parseIntJS (parts.getD 1 ""),
          username := some (parts.getD 2 ""), password := some (parts.getD 3 ""),
          proxy := parts.getD 0 "" ++ ":" ++ parts.getD 1 "" }
  else
    .error ("Invalid proxy format: " ++ s)

/-- JS truthiness of a possibly-null string: null and the empty string are
falsy. -/
def truthyStr : Option String → Bool
  | none => false
  | some s => s != ""

/-- The per-endpoint serializer used by saveProxyList: the four-field form
is emitted only when both username and password are truthy, else the
two-field form. -/
def serializeProxy (p : Endpoint) : String :=
  if truthyStr p.username && truthyStr p.password then
    p.host ++ ":" ++ intToStr p.port ++ ":" ++ p.username.getD "" ++ ":" ++ p.password.getD ""
  else
    p.host ++ ":" ++ intToStr p.port

/-- DEFAULT_PROXY_LIST from the source. -/
def DEFAULT_PROXY_LIST : List String := [
  "38.154.227.167:5868:kdzrrkqv:763ww9x8x6x3",
  "198.23.239.134:6540:kdzrrkqv:763ww9x8x6x3",
  "207.244.217.165:6712:kdzrrkqv:763ww9x8x6x3",
  "107.172.163.27:6543:kdzrrkqv:763ww9x8x6x3",
  "216.10.27.159:6837:kdzrrkqv:763ww9x8x6x3",
  "136.0.207.84:6661:kdzrrkqv:763ww9x8x6x3",
  "64.64.118.149:6732:kdzrrkqv:763ww9x8x6x3",
  "142.147.128.93:6593:kdzrrkqv:763ww9x8x6x3",
  "104.239.105.125:6655:kdzrrkqv:763ww9x8x6x3",
  "206.41.172.74:6634:kdzrrkqv:763ww9x8x6x3",
  "156.253.166.39:3129::",
  "154.213.193.50:3129::",
  "156.248.82.131:3129::",
  "156.242.34.12:3129::",
  "45.201.10.76:3129::",
  "156.242.33.139:3129::",
  "154.213.166.44:3129::",
  "156.228.176.249:3129::"
]

/-- JS Array.prototype.map with a throwing callback: the first entry that
parseProxy rejects aborts the whole map with that error. -/
def parseAll : List String → Except String (List Endpoint)
  | [] => .ok []
  | s :: t =>
    match parseProxy s with
    | .error m => .error m
    | .ok e =>
      match parseAll t with
      | .error m => .error m
      | .ok es => .ok (e :: es)

/-- The default pool as parsed by DEFAULT_PROXY_LIST.map(parseProxy); every
default entry is well-formed so the map succeeds. -/
def defaultEndpoints : List Endpoint :=
  (parseAll DEFAULT_PROXY_LIST).toOption.getD []

/-- loadProxyList from the source, over the already-JSON-decoded stored
value (none models an absent or unparseable stored string). The body maps
parseProxy over the whole stored list inside one try block: the first
malformed entry throws, and the catch replaces the pool with the parsed
default list. An absent or empty stored list also seeds the default list. -/
def loadProxyList (stored : Option (List String)) : List Endpoint :=
  match stored with
  | some l =>
    if 0 < l.length then
      match parseAll l with
      | .ok eps => eps
      | .error _ => defaultEndpoints
    else defaultEndpoints
  | none => defaultEndpoints

/-- Per-endpoint health statistics, the zero-initialized object created by
updateProxyStats on first reference of a key. Timestamps and latencies are
integral milliseconds. -/
structure ProxyStats where
  totalRequests : Nat
  successfulRequests : Nat
  totalResponseTime : Int
  lastUsed : Int
  failures : Nat
  avgResponseTime : Int
  blockedCount : Nat
  lastBlocked : Int
deriving DecidableEq, Repr

/-- The zero-valued stats record. -/
def ProxyStats.zero : ProxyStats :=
  { totalRequests := 0, successfulRequests := 0, totalResponseTime := 0,
    lastUsed := 0, failures := 0, avgResponseTime := 0,
    blockedCount := 0, lastBlocked := 0 }

/-- JS Math.round: nearest integer, halves toward positive infinity. -/
def jsRound (q : ℚ) : Int := ⌊q + 1 / 2⌋

/-- The proxyStats object: canonical key to stats, absent keys are none. -/
abbrev StatsMap := String → Option ProxyStats

/-- The empty stats object. -/
def emptyStats : StatsMap := fun _ => none

/-- updateProxyStats from the source: creates a zero record on first use,
always bumps totalRequests and lastUsed; on success bumps
successfulRequests and the latency sum, recomputes the rounded average and
decrements failures floored at zero; on failure increments failures and,
when isBlocked, additionally increments blockedCount and stamps
lastBlocked. (The debounced persistence write is outside the model.) -/
def updateProxyStats (m : StatsMap) (key : String) (success : Bool)
    (responseTime : Int) (isBlocked : Bool) (now : Int) : StatsMap :=
  let s0 := (m key).getD ProxyStats.zero
  let s1 := { s0 with totalRequests := s0.totalRequests + 1, lastUsed := now }
  let s2 :=
    if success then
      let sr := s1.successfulRequests + 1
      let tot := s1.totalResponseTime + responseTime
      { s1 with successfulRequests := sr, totalResponseTime := tot,
                avgResponseTime := jsRound ((tot : ℚ) / (sr : ℚ)),
                failures := s1.failures - 1 }
    else
      let s1f := { s1 with failures := s1.failures + 1 }
      if isBlocked then
        { s1f with blockedCount := s1f.blockedCount + 1, lastBlocked := now }
      else s1f
  fun k => if k = key then some s2 else m k

/-- markProxyAsBlocked from the source: one blocked failure at the 30000 ms
penalty latency, then three more plain failures through the same path. -/
def markProxyAsBlocked (m : StatsMap) (key : String) (now : Int) : StatsMap :=
  let m1 := updateProxyStats m key false 30000 true now
  let m2 := updateProxyStats m1 key false 30000 false now
  let m3 := updateProxyStats m2 key false 30000 false now
  updateProxyStats m3 key false 30000 false now

/-- The blocked-proxy cooldown of selectRandomProxy: one hour in ms. -/
def blockCooldown : Int := 60 * 60 * 1000

/-- The selection weight computed per candidate inside selectRandomProxy,
before the random draw: base 1 with no history, else success rate times 10,
divided by twice the failures when positive, divided by the blocked penalty
(times 10 inside the one-hour cooldown, times 2 after), floored at 0.01. -/
def rawWeight (os : Option ProxyStats) (now : Int) : ℚ :=
  match os with
  | none => 1
  | some s =>
    if 0 < s.totalRequests then
      let successRate : ℚ := (s.successfulRequests : ℚ) / (s.totalRequests : ℚ)
      let w1 := successRate * 10
      let w2 := if 0 < s.failures then w1 / ((s.failures : ℚ) * 2) else w1
      if 0 < s.blockedCount then
        if now - s.lastBlocked < blockCooldown then
          w2 / ((s.blockedCount : ℚ) * 10)
        else
          w2 / ((s.blockedCount : ℚ) * 2)
      else w2
    else 1

/-- Math.max(weight, 0.01), the floor applied by selectRandomProxy. -/
def proxyWeight (os : Option ProxyStats) (now : Int) : ℚ :=
  max (rawWeight os now) (1 / 100)

/-- addProxy from the source, over the in-memory list and stats: a parse
failure is caught and reported as false with nothing mutated and nothing
persisted; a duplicate canonical key is a no-op reported as false; else the
endpoint is appended and the list persisted. The returned Bool pair is
(return value, whether saveProxyList ran). -/
def addProxy (lst : List Endpoint) (stats : StatsMap) (s : String) :
    Bool × List Endpoint × StatsMap × Bool :=
  match parseProxy s with
  | .error _ => (false, lst, stats, false)
  | .ok p =>
    if lst.any (fun q => q.proxy = p.proxy) then (false, lst, stats, false)
    else (true, lst ++ [p], stats, true)

/-- MAX_PROXY_RETRIES from the source. -/
def MAX_PROXY_RETRIES : Nat := 3

/-- MAX_405_ERRORS from the source: auto-disable threshold. -/
def MAX_405_ERRORS : Nat := 5

/-- Outcome of one GM_xmlhttpRequest dispatch: onload with an HTTP status
and measured latency, onerror with an error message, or ontimeout. -/
inductive Res where
  | ok (status : Nat) (lat : Int)
  | nerr (msg : String) (lat : Int)
  | tmo (lat : Int)
deriving DecidableEq, Repr

/-- One scheduled dispatch of the environment script driving a call:
the endpoint selectRandomProxy returns for a proxied attempt (none models
an empty pool) and the transport outcome of the dispatch that consumes
this entry. -/
structure SEntry where
  sel : Option Endpoint
  res : Res
deriving DecidableEq, Repr

/-- Trace event: a dispatch through a proxy endpoint key, or a direct one. -/
inductive Ev where
  | proxied (key : String) (r : Res)
  | direct (r : Res)
deriving DecidableEq, Repr

/-- How the promise returned by makeProxyRequest settles. -/
inductive CallRes where
  | resolved (status : Nat)
  | rejected (msg : String)
deriving DecidableEq, Repr

/-- Module-global state shared by all calls: the persisted enabled flag,
the global http405Count streak, and the proxyStats object. -/
structure GState where
  enabled : Bool
  http405Count : Nat
  stats : StatsMap

/-- Settlement of the direct dispatch made when the proxy layer is
disabled: onload resolves with any status, onerror rejects with the raw
error, ontimeout rejects with the constant timeout error. -/
def disabledRes : Res → CallRes
  | .ok s _ => .resolved s
  | .nerr m _ => .rejected m
  | .tmo _ => .rejected "Request timeout"

/-- Settlement of the direct fallback after all proxy attempts failed:
onload resolves with any status; onerror and ontimeout both reject with the
same constant message, carrying neither underlying error. -/
def exhaustRes : Res → CallRes
  | .ok s _ => .resolved s
  | .nerr _ _ => .rejected "All proxy attempts and direct request failed"
  | .tmo _ => .rejected "All proxy attempts and direct request failed"

/-- Settlement of the immediate direct fallback when selectRandomProxy
returns null. -/
def noProxyRes : Res → CallRes
  | .ok s _ => .resolved s
  | .nerr m _ => .rejected m
  | .tmo _ => .rejected "Direct request timeout"

/-- Settlement of the direct fallback made right after the 405 auto-disable
trip. -/
def autoDisableRes : Res → CallRes
  | .ok s _ => .resolved s
  | .nerr _ _ => .rejected "Proxy auto-disabled and direct request failed"
  | .tmo _ => .rejected "Proxy auto-disabled and direct request timeout"

/-- The attemptRequest loop of makeProxyRequest, driven by a script of
dispatch outcomes; each consumed entry is one network dispatch. Arguments
mirror the closure state: pending is (some key) while a 405-triggered
POST-to-GET reissue against key is in flight, attempt is the JS attempt
counter (pre-increment for the loop entry, the slot number while pending),
excluded is excludedProxies. Returns the final global state, the dispatch
trace, and the settlement (none when the script ends with the call still
pending). -/
def runCall (method : String) (now : Int) :
    Option String → Nat → List String → GState → List SEntry →
    GState × List Ev × Option CallRes
  | _, _, _, st, [] => (st, [], none)
  | pending, a, excl, st, e :: rest =>
    let act : (String × Nat) ⊕ (GState × List Ev × Option CallRes) :=
      match pending with
      | some key => .inl (key, a)
      | none =>
        if MAX_PROXY_RETRIES < a + 1 then
          .inr (st, [Ev.direct e.res], some (exhaustRes e.res))
        else
          match e.sel with
          | none => .inr (st, [Ev.direct e.res], some (noProxyRes e.res))
          | some ep => .inl (ep.proxy, a + 1)
    match act with
    | .inr out => out
    | .inl (key, a1) =>
      match e.res with
      | .ok status lat =>
        if status = 200 then
          ({ st with http405Count := 0,
                     stats := updateProxyStats st.stats key true lat false now },
           [Ev.proxied key e.res], some (.resolved status))
        else if status = 405 then
          let c := st.http405Count + 1
          let st1 := { st with http405Count := c,
                               stats := updateProxyStats st.stats key false lat false now }
          if MAX_405_ERRORS ≤ c then
            let st2 := { st1 with enabled := false }
            match rest with
            | [] => (st2, [Ev.proxied key e.res], none)
            | d :: _ =>
              (st2, [Ev.proxied key e.res, Ev.direct d.res],
               some (autoDisableRes d.res))
          else if method = "POST" then
            let r := runCall method now (some key) a1 excl st1 rest
            (r.1, Ev.proxied key e.res :: r.2.1, r.2.2)
          else
            let r := runCall method now none a1 (excl ++ [key]) st1 rest
            (r.1, Ev.proxied key e.res :: r.2.1, r.2.2)
        else
          let st1 := { st with stats := updateProxyStats st.stats key false lat false now }
          let r := runCall method now none a1 (excl ++ [key]) st1 rest
          (r.1, Ev.proxied key e.res :: r.2.1, r.2.2)
      | .nerr _ lat =>
        let st1 := { st with stats := updateProxyStats st.stats key false lat false now }
        let r := runCall method now none a1 (excl ++ [key]) st1 rest
        (r.1, Ev.proxied key e.res :: r.2.1, r.2.2)
      | .tmo lat =>
        let st1 := { st with stats := updateProxyStats st.stats key false lat false now }
        let r := runCall method now none a1 (excl ++ [key]) st1 rest
        (r.1, Ev.proxied key e.res :: r.2.1, r.2.2)

/-- makeProxyRequest from the source: when isProxyEnabled is false, one
direct dispatch settles the call with no proxy selection at all; otherwise
the attempt loop runs starting at attempt 0 with an empty exclusion set. -/
def makeProxyRequest (method : String) (now : Int) (st : GState)
    (script : List SEntry) : GState × List Ev × Option CallRes :=
  if st.enabled then runCall method now none 0 [] st script
  else
    match script with
    | [] => (st, [], none)
    | e :: _ => (st, [Ev.direct e.res], some (disabledRes e.res))

/-- Number of proxied dispatches in a trace. -/
def countProxied : List Ev → Nat
  | [] => 0
  | .proxied _ _ :: t => countProxied t + 1
  | .direct _ :: t => countProxied t

/-- Number of direct dispatches in a trace. -/
def countDirect : List Ev → Nat
  | [] => 0
  | .proxied _ _ :: t => countDirect t
  | .direct _ :: t => countDirect t + 1

/-- Whether a dispatch outcome is an onload with HTTP status 405. -/
def is405 : Res → Bool
  | .ok s _ => s == 405
  | .nerr _ _ => false
  | .tmo _ => false

/-- Number of proxied HTTP 405 outcomes in a trace. -/
def count405 : List Ev → Nat
  | [] => 0
  | .proxied _ r :: t => count405 t + (if is405 r then 1 else 0)
  | .direct _ :: t => count405 t

/-- Whether a dispatch outcome is a transport failure (onerror/ontimeout). -/
def isNetFail : Res → Bool
  | .ok _ _ => false
  | .nerr _ _ => true
  | .tmo _ => true

/-- One recorded call to updateProxyStats (health-tracker outcome event). -/
structure UpdCall where
  key : String
  success : Bool
  responseTime : Int
  isBlocked : Bool
  now : Int

/-- Fold a sequence of recordOutcome events over the stats object. -/
def applyUpdates (m : StatsMap) : List UpdCall → StatsMap
  | [] => m
  | c :: cs => applyUpdates (updateProxyStats m c.key c.success c.responseTime c.isBlocked c.now) cs

/-- The average invariant of the health stats: the stored average is the
rounded mean latency of the successes, and 0 while there is no success. -/
def avgInvariant (m : StatsMap) : Prop :=
  ∀ k s, m k = some s →
    (s.successfulRequests = 0 → s.avgResponseTime = 0) ∧
    (0 < s.successfulRequests →
      s.avgResponseTime = jsRound ((s.totalResponseTime : ℚ) / (s.successfulRequests : ℚ)))

/-- A port field that survives the parseInt/stringify pair unchanged, i.e.
the canonical decimal spelling of its parseInt value. -/
def canonicalPort (p : String) : Prop := intToStr (parseIntJS p) = p

/-- A two-field endpoint string whose port field is canonical. -/
def canonicalTwoField (s : String) : Prop :=
  (jsSplit s ':').length = 2 ∧
  s = (jsSplit s ':').getD 0 "" ++ ":" ++ (jsSplit s ':').getD 1 "" ∧
  canonicalPort ((jsSplit s ':').getD 1 "")

/-- A four-field endpoint string whose port field is canonical and whose
username and password are both nonempty (JS-truthy). -/
def canonicalFourField (s : String) : Prop :=
  (jsSplit s ':').length = 4 ∧
  s = (jsSplit s ':').getD 0 "" ++ ":" ++ (jsSplit s ':').getD 1 "" ++ ":" ++
      (jsSplit s ':').getD 2 "" ++ ":" ++ (jsSplit s ':').getD 3 "" ∧
  canonicalPort ((jsSplit s ':').getD 1 "") ∧
  (jsSplit s ':').getD 2 "" ≠ "" ∧ (jsSplit s ':').getD 3 "" ≠ ""

/-- A sample endpoint with canonical key "a:1". -/
def epA : Endpoint :=
  { host := "a", port := some 1, username := none, password := none, proxy := "a:1" }

/-- Fresh enabled global state: zero streak, empty stats. -/
def gs0 : GState := { enabled := true, http405Count := 0, stats := emptyStats }

/-- Enabled global state with a 405 streak of 3. -/
def gs3 : GState := { enabled := true, http405Count := 3, stats := emptyStats }

/-- Enabled global state with a 405 streak of 4 (one shy of the trip). -/
def gs4 : GState := { enabled := true, http405Count := 4, stats := emptyStats }

/-- Disabled global state. -/
def gsOff : GState := { enabled := false, http405Count := 0, stats := emptyStats }

/-- Script of five straight 405 responses, then a direct 200: drives the
POST reissue path into the auto-disable trip. -/
def c2script : List SEntry :=
  List.replicate 5 { sel := some epA, res := .ok 405 3 } ++ [{ sel := none, res := .ok 200 1 }]

/-- Stats object holding one plain failure for key "p:1". -/
def cm6 : StatsMap := updateProxyStats emptyStats "p:1" false 100 false 0

/-- Two successful outcomes for key "k" with latencies 1 and 2 ms. -/
def c7calls : List UpdCall :=
  [{ key := "k", success := true, responseTime := 1, isBlocked := false, now := 0 },
   { key := "k", success := true, responseTime := 2, isBlocked := false, now := 0 }]

/-- The stats record produced by c7calls: mean latency 3/2 stored rounded
up to 2. -/
def c7stats : ProxyStats :=
  { totalRequests := 2, successfulRequests := 2, totalResponseTime := 3,
    lastUsed := 0, failures := 0, avgResponseTime := 2,
    blockedCount := 0, lastBlocked := 0 }

/-- A once-blocked endpoint record with no successes: its weight sits at
the 0.01 floor on both sides of the cooldown boundary. -/
def s8 : ProxyStats :=
  { totalRequests := 1, successfulRequests := 0, totalResponseTime := 0,
    lastUsed := 0, failures := 1, avgResponseTime := 0,
    blockedCount := 1, lastBlocked := 0 }

/-- A once-blocked endpoint record with a perfect success history: its
weight clears the 0.01 floor out of cooldown. -/
def s8w : ProxyStats :=
  { totalRequests := 10, successfulRequests := 10, totalResponseTime := 0,
    lastUsed := 0, failures := 0, avgResponseTime := 0,
    blockedCount := 1, lastBlocked := 0 }

theorem parseProxy_error_of_badFields {s : String}
    (h2 : (jsSplit s ':').length ≠ 2) (h4 : (jsSplit s ':').length ≠ 4) :
    parseProxy s = .error ("Invalid proxy format: " ++ s) := by
  simp [parseProxy, h2, h4]

theorem parseAll_not_ok : ∀ (l : List String) (s : String), s ∈ l →
    parseProxy s = Except.error ("Invalid proxy format: " ++ s) →
    ∀ es, parseAll l ≠ Except.ok es := by
  intro l
  induction l with
  | nil => intro s hs; cases hs
  | cons a t ih =>
    intro s hs herr es
    rcases List.mem_cons.mp hs with rfl | hst
    · simp [parseAll, herr]
    · cases hpa : parseProxy a with
      | error m => simp [parseAll, hpa]
      | ok e =>
        cases hpt : parseAll t with
        | error m => simp [parseAll, hpa, hpt]
        | ok es2 => exact absurd hpt (ih s hst herr es2)

/-- C10: for every malformed endpoint string (field count other than 2 or
4) addProxy catches the parse error and returns false, leaving the
endpoint list and the stats mapping unchanged and performing no
persistence write. -/
theorem c10_holds (lst : List Endpoint) (stats : StatsMap) (s : String)
    (h2 : (jsSplit s ':').length ≠ 2) (h4 : (jsSplit s ':').length ≠ 4) :
    addProxy lst stats s = (false, lst, stats, false) := by
  simp [addProxy, parseProxy, h2, h4]

theorem c10_holds_witness :
    addProxy [] emptyStats "bad" = (false, [], emptyStats, false) :=
  c10_holds [] emptyStats "bad" (by decide) (by decide)

/-- C4 counterexample: a stored list holding the well-formed entry
"1.2.3.4:80" and the malformed entry "bad" restores to the built-in
default pool; the well-formed entry is not kept, contradicting the claim
that only the malformed entry is dropped. -/
theorem c4_counterexample :
    loadProxyList (some ["1.2.3.4:80", "bad"]) = defaultEndpoints ∧
    ¬ ∃ e ∈ loadProxyList (some ["1.2.3.4:80", "bad"]), e.proxy = "1.2.3.4:80" := by
  decide

/-- C4 amended: a single malformed stored endpoint string aborts the whole
restore: loadProxyList replaces the pool with the built-in default list,
and the remaining well-formed stored entries are not preserved. -/
theorem c4_amended (l : List String) (s : String) (hs : s ∈ l)
    (h2 : (jsSplit s ':').length ≠ 2) (h4 : (jsSplit s ':').length ≠ 4) :
    loadProxyList (some l) = defaultEndpoints := by
  have hne : 0 < l.length := List.length_pos.mpr (List.ne_nil_of_mem hs)
  have hnot := parseAll_not_ok l s hs (parseProxy_error_of_badFields h2 h4)
  cases hpa : parseAll l with
  | ok es => exact absurd hpa (hnot es)
  | error m => simp [loadProxyList, hne, hpa]

theorem c4_amended_witness :
    loadProxyList (some ["5.6.7.8:90", "oops"]) = defaultEndpoints :=
  c4_amended ["5.6.7.8:90", "oops"] "oops" (by decide) (by decide) (by decide)

/-- C5 counterexample: parse accepts the four-field string "1.2.3.4:08::"
(port field "08", empty username and password), but serialize of its parse
is "1.2.3.4:8": the canonical key changes from "1.2.3.4:08" to "1.2.3.4:8"
and the empty-string credentials become null, so serialize(parse(s)) is not
equivalent to s. -/
theorem c5_counterexample :
    (parseProxy "1.2.3.4:08::").toOption.map Endpoint.proxy = some "1.2.3.4:08" ∧
    (parseProxy "1.2.3.4:08::").toOption.map serializeProxy = some "1.2.3.4:8" ∧
    (parseProxy "1.2.3.4:8").toOption.map Endpoint.proxy = some "1.2.3.4:8" ∧
    (parseProxy "1.2.3.4:08::").toOption.map Endpoint.username = some (some "") ∧
    (parseProxy "1.2.3.4:8").toOption.map Endpoint.username = some none := by
  decide

/-- C5 amended: serialize(parse(s)) returns s itself (hence the same
canonical key and credentials) for the accepted strings whose port field
is the canonical spelling of its parseInt value and whose four-field form
carries JS-truthy (nonempty) username and password; outside that fragment
the round trip can change the key or drop empty credentials. -/
theorem c5_amended (s : String) (h : canonicalTwoField s ∨ canonicalFourField s) :
    ∃ e, parseProxy s = .ok e ∧ serializeProxy e = s := by
  rcases h with ⟨h2, hjoin, hport⟩ | ⟨h4, hjoin, hport, hu, hp⟩
  · unfold canonicalPort at hport
    refine ⟨{ host := (jsSplit s ':').getD 0 "",
              port := parseIntJS ((jsSplit s ':').getD 1 ""),
              username := none, password := none,
              proxy := (jsSplit s ':').getD 0 "" ++ ":" ++ (jsSplit s ':').getD 1 "" }, ?_, ?_⟩
    · simp [parseProxy, h2]
    · simp only [serializeProxy, truthyStr, Bool.false_and, Bool.false_eq_true, if_false]
      rw [hport]
      exact hjoin.symm
  · unfold canonicalPort at hport
    refine ⟨{ host := (jsSplit s ':').getD 0 "",
              port := parseIntJS ((jsSplit s ':').getD 1 ""),
              username := some ((jsSplit s ':').getD 2 ""),
              password := some ((jsSplit s ':').getD 3 ""),
              proxy := (jsSplit s ':').getD 0 "" ++ ":" ++ (jsSplit s ':').getD 1 "" }, ?_, ?_⟩
    · simp [parseProxy, h4]
    · simp only [serializeProxy, truthyStr, Option.getD_some]
      rw [if_pos (by simp only [Bool.and_eq_true, bne_iff_ne, ne_eq]; exact ⟨hu, hp⟩), hport]
      exact hjoin.symm

theorem c5_amended_witness :
    ∃ e, parseProxy "9.9.9.9:80" = .ok e ∧ serializeProxy e = "9.9.9.9:80" :=
  c5_amended "9.9.9.9:80"
    (Or.inl ⟨by decide, by decide, by unfold canonicalPort; decide⟩)

theorem avgInvariant_empty : avgInvariant emptyStats := by
  intro k s hs
  simp [emptyStats] at hs

theorem avgInvariant_update (m : StatsMap) (hm : avgInvariant m)
    (key : String) (b : Bool) (r : Int) (bl : Bool) (now : Int) :
    avgInvariant (updateProxyStats m key b r bl now) := by
  intro k s hs
  simp only [updateProxyStats] at hs
  by_cases hk : k = key
  · rw [if_pos hk] at hs
    injection hs with hs
    subst hs
    cases b with
    | true =>
      refine ⟨fun h0 => by simp at h0, fun _ => by simp⟩
    | false =>
      cases hmk : m key with
      | none => cases bl <;> simp [hmk, ProxyStats.zero]
      | some sOld =>
        have hold := hm key sOld hmk
        cases bl <;> simpa [hmk] using hold
  · rw [if_neg hk] at hs
    exact hm k s hs

/-- C7 amended: after every sequence of updateProxyStats calls starting
from the empty stats object, every stored record satisfies
avgResponseTime = Math.round(totalResponseTime / successfulRequests) when
successfulRequests is positive (the stored average is the rounded
quotient, not the exact one), and avgResponseTime = 0 when
successfulRequests = 0. -/
theorem c7_amended (calls : List UpdCall) :
    avgInvariant (applyUpdates emptyStats calls) := by
  have h : ∀ (cs : List UpdCall) (m : StatsMap),
      avgInvariant m → avgInvariant (applyUpdates m cs) := by
    intro cs
    induction cs with
    | nil => intro m hm; exact hm
    | cons c t ih =>
      intro m hm
      exact ih _ (avgInvariant_update m hm c.key c.success c.responseTime c.isBlocked c.now)
  exact h calls emptyStats avgInvariant_empty

theorem c7calls_eval : (applyUpdates emptyStats c7calls) "k" = some c7stats := by
  simp only [applyUpdates, c7calls, updateProxyStats, emptyStats, ProxyStats.zero, c7stats]
  norm_num [jsRound]

theorem c7_amended_witness :
    (c7stats.successfulRequests = 0 → c7stats.avgResponseTime = 0) ∧
    (0 < c7stats.successfulRequests →
      c7stats.avgResponseTime =
        jsRound ((c7stats.totalResponseTime : ℚ) / (c7stats.successfulRequests : ℚ))) :=
  c7_amended c7calls "k" c7stats c7calls_eval

/-- C7 counterexample: two successes with latencies 1 and 2 ms give
totalResponseTime 3 and successfulRequests 2, but the stored average is
Math.round(3/2) = 2, not the exact quotient 3/2 the claim states. -/
theorem c7_counterexample :
    (applyUpdates emptyStats c7calls) "k" = some c7stats ∧
    0 < c7stats.successfulRequests ∧
    (c7stats.avgResponseTime : ℚ) ≠
      (c7stats.totalResponseTime : ℚ) / (c7stats.successfulRequests : ℚ) := by
  refine ⟨c7calls_eval, by decide, ?_⟩
  norm_num [c7stats]

/-- C8 counterexample: a blocked endpoint with no successes sits at the
0.01 weight floor both inside and outside the one-hour cooldown, so its
weight does not strictly increase when the boundary is crossed. -/
theorem c8_counterexample :
    0 < s8.blockedCount ∧
    (10 : Int) - s8.lastBlocked < blockCooldown ∧
    blockCooldown ≤ (3600000 : Int) - s8.lastBlocked ∧
    proxyWeight (some s8) 10 = 1 / 100 ∧
    proxyWeight (some s8) 3600000 = 1 / 100 ∧
    ¬ proxyWeight (some s8) 10 < proxyWeight (some s8) 3600000 := by
  have h1 : proxyWeight (some s8) 10 = 1 / 100 := by
    norm_num [proxyWeight, rawWeight, s8, blockCooldown]
  have h2 : proxyWeight (some s8) 3600000 = 1 / 100 := by
    norm_num [proxyWeight, rawWeight, s8, blockCooldown]
  exact ⟨by decide, by decide, by decide, h1, h2, by rw [h1, h2]; exact lt_irrefl _⟩

/-- C8 amended: once now - lastBlockedAt crosses the one-hour cooldown the
blocked penalty divisor drops from blockedCount*10 to blockedCount*2, so
(with totalRequests positive so the penalty applies at all) the selection
weight never decreases across the boundary, and it strictly increases
exactly when the post-cooldown weight clears the 0.01 floor; at the floor
it stays 0.01 on both sides. -/
theorem c8_amended (s : ProxyStats) (tIn tOut : Int)
    (hbc : 0 < s.blockedCount) (hT : 0 < s.totalRequests)
    (hin : tIn - s.lastBlocked < blockCooldown)
    (hout : blockCooldown ≤ tOut - s.lastBlocked) :
    proxyWeight (some s) tIn ≤ proxyWeight (some s) tOut ∧
    (1 / 100 < proxyWeight (some s) tOut →
      proxyWeight (some s) tIn < proxyWeight (some s) tOut) := by
  have hbQ : (0 : ℚ) < (s.blockedCount : ℚ) := by exact_mod_cast hbc
  set w2 : ℚ :=
      (if 0 < s.failures then
        (s.successfulRequests : ℚ) / (s.totalRequests : ℚ) * 10 / ((s.failures : ℚ) * 2)
      else (s.successfulRequests : ℚ) / (s.totalRequests : ℚ) * 10) with hw2
  have hw2nn : 0 ≤ w2 := by
    rw [hw2]
    split <;> positivity
  have hrawIn : rawWeight (some s) tIn = w2 / ((s.blockedCount : ℚ) * 10) := by
    rw [hw2]
    simp only [rawWeight]
    rw [if_pos hT, if_pos hbc, if_pos hin]
  have hrawOut : rawWeight (some s) tOut = w2 / ((s.blockedCount : ℚ) * 2) := by
    rw [hw2]
    simp only [rawWeight]
    rw [if_pos hT, if_pos hbc, if_neg (not_lt.mpr hout)]
  have hdivFive : rawWeight (some s) tIn = rawWeight (some s) tOut / 5 := by
    rw [hrawIn, hrawOut, div_div]
    ring_nf
  have hle : rawWeight (some s) tIn ≤ rawWeight (some s) tOut := by
    have hOutnn : 0 ≤ rawWeight (some s) tOut := by
      rw [hrawOut]; positivity
    rw [hdivFive]
    linarith
  constructor
  · exact max_le_max hle le_rfl
  · intro hgt
    have hOutgt : 1 / 100 < rawWeight (some s) tOut := by
      rcases lt_max_iff.mp hgt with h | h
      · exact h
      · exact absurd h (lt_irrefl _)
    have hOutpos : 0 < rawWeight (some s) tOut := lt_trans (by norm_num) hOutgt
    have hInlt : rawWeight (some s) tIn < rawWeight (some s) tOut := by
      rw [hdivFive]; linarith
    have hWOut : proxyWeight (some s) tOut = rawWeight (some s) tOut :=
      max_eq_left (le_of_lt hOutgt)
    rw [hWOut]
    exact max_lt hInlt hOutgt

theorem c8_amended_witness :
    proxyWeight (some s8w) 10 ≤ proxyWeight (some s8w) 3600000 ∧
    (1 / 100 < proxyWeight (some s8w) 3600000 →
      proxyWeight (some s8w) 10 < proxyWeight (some s8w) 3600000) :=
  c8_amended s8w 10 3600000 (by decide) (by decide) (by decide) (by decide)

theorem markProxyAsBlocked_apply (m : StatsMap) (k : String) (now : Int) :
    (markProxyAsBlocked m k now) k =
      some { totalRequests := ((m k).getD ProxyStats.zero).totalRequests + 4,
             successfulRequests := ((m k).getD ProxyStats.zero).successfulRequests,
             totalResponseTime := ((m k).getD ProxyStats.zero).totalResponseTime,
             lastUsed := now,
             failures := ((m k).getD ProxyStats.zero).failures + 4,
             avgResponseTime := ((m k).getD ProxyStats.zero).avgResponseTime,
             blockedCount := ((m k).getD ProxyStats.zero).blockedCount + 1,
             lastBlocked := now } := by
  simp [markProxyAsBlocked, updateProxyStats]

/-- C6 counterexample: on an endpoint whose stats hold one plain failure
(so its weight already sits at the 0.01 floor), markProxyAsBlocked leaves
the in-cooldown selection weight at 0.01, which is not at most one tenth
of the 0.01 weight before the call. -/
theorem c6_counterexample :
    (cm6 "p:1").map ProxyStats.blockedCount = some 0 ∧
    ((markProxyAsBlocked cm6 "p:1" 50) "p:1").map ProxyStats.blockedCount = some 1 ∧
    (60 : Int) - 50 < blockCooldown ∧
    proxyWeight (cm6 "p:1") 60 = 1 / 100 ∧
    proxyWeight ((markProxyAsBlocked cm6 "p:1" 50) "p:1") 60 = 1 / 100 ∧
    ¬ proxyWeight ((markProxyAsBlocked cm6 "p:1" 50) "p:1") 60 ≤
        proxyWeight (cm6 "p:1") 60 / 10 := by
  have h1 : cm6 "p:1" = some
      { totalRequests := 1, successfulRequests := 0, totalResponseTime := 0,
        lastUsed := 0, failures := 1, avgResponseTime := 0,
        blockedCount := 0, lastBlocked := 0 } := by decide
  have h2 : (markProxyAsBlocked cm6 "p:1" 50) "p:1" = some
      { totalRequests := 5, successfulRequests := 0, totalResponseTime := 0,
        lastUsed := 50, failures := 5, avgResponseTime := 0,
        blockedCount := 1, lastBlocked := 50 } := by decide
  have hw1 : proxyWeight (cm6 "p:1") 60 = 1 / 100 := by
    rw [h1]; norm_num [proxyWeight, rawWeight, blockCooldown]
  have hw2 : proxyWeight ((markProxyAsBlocked cm6 "p:1" 50) "p:1") 60 = 1 / 100 := by
    rw [h2]; norm_num [proxyWeight, rawWeight, blockCooldown]
  refine ⟨by rw [h1]; rfl, by rw [h2]; rfl, by decide, hw1, hw2, ?_⟩
  rw [hw1, hw2]
  norm_num

/-- C6 amended: markProxyAsBlocked on an endpoint with prior blockedCount 0
yields blockedCount 1, failures increased by exactly 4, lastBlocked set to
the call time and, within the one-hour cooldown, a selection weight at most
the maximum of one tenth of the prior weight and the 0.01 floor; the floor
(not present in the claim) is reached whenever one tenth of the prior
weight falls below 0.01, so the weight need not drop by a full factor of
ten. -/
theorem c6_amended (m : StatsMap) (k : String) (now t : Int)
    (hprior : ∀ s, m k = some s →
      s.blockedCount = 0 ∧ s.successfulRequests ≤ s.totalRequests)
    (hcool : t - now < blockCooldown) :
    ∃ s1, (markProxyAsBlocked m k now) k = some s1 ∧
      s1.blockedCount = 1 ∧
      s1.failures = ((m k).getD ProxyStats.zero).failures + 4 ∧
      s1.lastBlocked = now ∧
      proxyWeight ((markProxyAsBlocked m k now) k) t ≤
        max (proxyWeight (m k) t / 10) (1 / 100) := by
  have hbc0 : ((m k).getD ProxyStats.zero).blockedCount = 0 := by
    cases hmk : m k with
    | none => rfl
    | some s => simpa using (hprior s hmk).1
  have hST : ((m k).getD ProxyStats.zero).successfulRequests ≤
      ((m k).getD ProxyStats.zero).totalRequests := by
    cases hmk : m k with
    | none => exact le_refl 0
    | some s => simpa using (hprior s hmk).2
  refine ⟨_, markProxyAsBlocked_apply m k now, by simp [hbc0], rfl, rfl, ?_⟩
  rw [markProxyAsBlocked_apply m k now]
  set s0 := (m k).getD ProxyStats.zero with hs0
  set T := s0.totalRequests with hTdef
  set S := s0.successfulRequests with hSdef
  set F := s0.failures with hFdef
  have hfloor : (1 : ℚ) / 100 ≤ max (proxyWeight (m k) t / 10) (1 / 100) :=
    le_max_right _ _
  have hA : rawWeight (some
      { totalRequests := T + 4, successfulRequests := S,
        totalResponseTime := s0.totalResponseTime, lastUsed := now,
        failures := F + 4, avgResponseTime := s0.avgResponseTime,
        blockedCount := s0.blockedCount + 1, lastBlocked := now }) t =
      (S : ℚ) * 10 / (((T : ℚ) + 4) * (((F : ℚ) + 4) * 2) * 10) := by
    simp only [rawWeight, hbc0]
    rw [if_pos (by omega : 0 < T + 4), if_pos (by omega : 0 < F + 4),
        if_pos (by omega : 0 < 0 + 1), if_pos (by simpa using hcool)]
    push_cast
    rw [div_mul_eq_mul_div, div_div, div_div]
    ring_nf
  by_cases hS : S = 0
  · have hA0 : rawWeight (some
        { totalRequests := T + 4, successfulRequests := S,
          totalResponseTime := s0.totalResponseTime, lastUsed := now,
          failures := F + 4, avgResponseTime := s0.avgResponseTime,
          blockedCount := s0.blockedCount + 1, lastBlocked := now }) t = 0 := by
      rw [hA, hS]
      norm_num
    rw [proxyWeight, hA0]
    rw [max_eq_right (by norm_num)]
    exact hfloor
  · -- S positive forces a real record with positive totals
    have hSpos : 0 < S := Nat.pos_of_ne_zero hS
    have hTpos : 0 < T := lt_of_lt_of_le hSpos hST
    have hSQ : (0 : ℚ) < (S : ℚ) := by exact_mod_cast hSpos
    have hTQ : (0 : ℚ) < (T : ℚ) := by exact_mod_cast hTpos
    have hB : rawWeight (m k) t =
        (if 0 < F then (S : ℚ) * 10 / ((T : ℚ) * ((F : ℚ) * 2))
         else (S : ℚ) * 10 / (T : ℚ)) := by
      cases hmk : m k with
      | none =>
        exfalso
        apply hS
        rw [hSdef, hs0, hmk]
        rfl
      | some s =>
        have hs0s : s0 = s := by rw [hs0, hmk]; rfl
        simp only [rawWeight]
        rw [if_pos (by rw [← hs0s, ← hTdef]; exact hTpos),
            if_neg (by rw [← hs0s]; omega)]
        rw [← hs0s, ← hTdef, ← hSdef, ← hFdef]
        split
        · rw [div_mul_eq_mul_div, div_div]
        · rw [div_mul_eq_mul_div]
    have hAB : rawWeight (some
        { totalRequests := T + 4, successfulRequests := S,
          totalResponseTime := s0.totalResponseTime, lastUsed := now,
          failures := F + 4, avgResponseTime := s0.avgResponseTime,
          blockedCount := s0.blockedCount + 1, lastBlocked := now }) t ≤
        rawWeight (m k) t / 10 := by
      rw [hA, hB]
      have hnum : (0 : ℚ) < (S : ℚ) * 10 := by positivity
      split
      · rename_i hF
        have hFQ : (0 : ℚ) < (F : ℚ) := by exact_mod_cast hF
        rw [div_div]
        rw [div_le_div_iff₀ (by positivity) (by positivity)]
        have hcross : (T : ℚ) * ((F : ℚ) * 2) * 10 ≤
            ((T : ℚ) + 4) * (((F : ℚ) + 4) * 2) * 10 := by
          nlinarith
        nlinarith
      · rw [div_div]
        rw [div_le_div_iff₀ (by positivity) (by positivity)]
        have hcross : (T : ℚ) * 10 ≤ ((T : ℚ) + 4) * (((F : ℚ) + 4) * 2) * 10 := by
          have hFQ : (0 : ℚ) ≤ (F : ℚ) := by positivity
          nlinarith
        nlinarith
    calc proxyWeight (some
        { totalRequests := T + 4, successfulRequests := S,
          totalResponseTime := s0.totalResponseTime, lastUsed := now,
          failures := F + 4, avgResponseTime := s0.avgResponseTime,
          blockedCount := s0.blockedCount + 1, lastBlocked := now }) t
        = max (rawWeight (some
            { totalRequests := T + 4, successfulRequests := S,
              totalResponseTime := s0.totalResponseTime, lastUsed := now,
              failures := F + 4, avgResponseTime := s0.avgResponseTime,
              blockedCount := s0.blockedCount + 1, lastBlocked := now }) t) (1 / 100) := rfl
      _ ≤ max (rawWeight (m k) t / 10) (1 / 100) := max_le_max hAB le_rfl
      _ ≤ max (proxyWeight (m k) t / 10) (1 / 100) := by
          apply max_le_max _ le_rfl
          apply div_le_div_of_nonneg_right ?_ (by norm_num)
          exact le_max_left _ _

theorem c6_amended_witness :
    ∃ s1, (markProxyAsBlocked emptyStats "p:1" 0) "p:1" = some s1 ∧
      s1.blockedCount = 1 ∧
      s1.failures = ((emptyStats "p:1").getD ProxyStats.zero).failures + 4 ∧
      s1.lastBlocked = 0 ∧
      proxyWeight ((markProxyAsBlocked emptyStats "p:1" 0) "p:1") 10 ≤
        max (proxyWeight (emptyStats "p:1") 10 / 10) (1 / 100) :=
  c6_amended emptyStats "p:1" 0 10 (fun s h => nomatch h) (by decide)

/-- C1 counterexample: a proxied dispatch answered with HTTP 201 (a 2xx
status) is not returned to the caller: the call stays pending (retrying),
the outcome is recorded as a failure for the endpoint, and the global 405
streak is left untouched rather than reset. -/
theorem c1_counterexample :
    (runCall "GET" 0 none 0 [] gs3 [{ sel := some epA, res := .ok 201 7 }]).2.2 = none ∧
    ((runCall "GET" 0 none 0 [] gs3 [{ sel := some epA, res := .ok 201 7 }]).1.stats "a:1").map
        ProxyStats.successfulRequests = some 0 ∧
    ((runCall "GET" 0 none 0 [] gs3 [{ sel := some epA, res := .ok 201 7 }]).1.stats "a:1").map
        ProxyStats.failures = some 1 ∧
    (runCall "GET" 0 none 0 [] gs3 [{ sel := some epA, res := .ok 201 7 }]).1.http405Count = 3 := by
  decide

/-- C1 amended: only HTTP status exactly 200 succeeds: on a 200 the
executor resets the global http405Count to 0, records a success with the
measured latency for the selected endpoint, and resolves with that
response consuming no further dispatches; every other status, 2xx
included, is handled as a failure. -/
theorem c1_amended (method : String) (now lat : Int) (st : GState) (a : Nat)
    (excl : List String) (ep : Endpoint) (rest : List SEntry)
    (ha : a + 1 ≤ MAX_PROXY_RETRIES) :
    runCall method now none a excl st ({ sel := some ep, res := .ok 200 lat } :: rest) =
      ({ st with http405Count := 0,
                 stats := updateProxyStats st.stats ep.proxy true lat false now },
       [Ev.proxied ep.proxy (.ok 200 lat)], some (.resolved 200)) := by
  have h1 : ¬ MAX_PROXY_RETRIES < a + 1 := by omega
  simp [runCall, h1]

theorem c1_amended_witness :
    runCall "GET" 5 none 0 [] gs0 [{ sel := some epA, res := .ok 200 7 }] =
      ({ gs0 with http405Count := 0,
                  stats := updateProxyStats gs0.stats "a:1" true 7 false 5 },
       [Ev.proxied "a:1" (.ok 200 7)], some (.resolved 200)) :=
  c1_amended "GET" 5 7 gs0 0 [] epA [] (by decide)

theorem countDirect_le_one (method : String) (now : Int) :
    ∀ (script : List SEntry) (pending : Option String) (a : Nat)
      (excl : List String) (st : GState),
      countDirect (runCall method now pending a excl st script).2.1 ≤ 1 := by
  intro script
  induction script with
  | nil =>
    intro pending a excl st
    simp [runCall, countDirect]
  | cons e rest ih =>
    intro pending a excl st
    obtain ⟨sel, res⟩ := e
    cases pending with
    | none =>
      by_cases hex : MAX_PROXY_RETRIES < a + 1
      · simp [runCall, hex, countDirect]
      · cases sel with
        | none => simp [runCall, hex, countDirect]
        | some ep =>
          cases res with
          | ok status lat =>
            by_cases h200 : status = 200
            · subst h200
              simp [runCall, hex, countDirect]
            · by_cases h405 : status = 405
              · subst h405
                by_cases htrip : MAX_405_ERRORS ≤ st.http405Count + 1
                · cases rest with
                  | nil => simp [runCall, hex, h200, htrip, countDirect]
                  | cons d rest2 => simp [runCall, hex, h200, htrip, countDirect]
                · by_cases hpost : method = "POST"
                  · simpa [runCall, hex, h200, htrip, hpost, countDirect] using
                      ih (some ep.proxy) (a + 1) excl _
                  · simpa [runCall, hex, h200, htrip, hpost, countDirect] using
                      ih none (a + 1) (excl ++ [ep.proxy]) _
              · simpa [runCall, hex, h200, h405, countDirect] using
                  ih none (a + 1) (excl ++ [ep.proxy]) _
          | nerr msg lat =>
            simpa [runCall, hex, countDirect] using
              ih none (a + 1) (excl ++ [ep.proxy]) _
          | tmo lat =>
            simpa [runCall, hex, countDirect] using
              ih none (a + 1) (excl ++ [ep.proxy]) _
    | some key =>
      cases res with
      | ok status lat =>
        by_cases h200 : status = 200
        · subst h200
          simp [runCall, countDirect]
        · by_cases h405 : status = 405
          · subst h405
            by_cases htrip : MAX_405_ERRORS ≤ st.http405Count + 1
            · cases rest with
              | nil => simp [runCall, h200, htrip, countDirect]
              | cons d rest2 => simp [runCall, h200, htrip, countDirect]
            · by_cases hpost : method = "POST"
              · simpa [runCall, h200, htrip, hpost, countDirect] using
                  ih (some key) a excl _
              · simpa [runCall, h200, htrip, hpost, countDirect] using
                  ih none a (excl ++ [key]) _
          · simpa [runCall, h200, h405, countDirect] using
              ih none a (excl ++ [key]) _
      | nerr msg lat =>
        simpa [runCall, countDirect] using ih none a (excl ++ [key]) _
      | tmo lat =>
        simpa [runCall, countDirect] using ih none a (excl ++ [key]) _

theorem countProxied_le (method : String) (now : Int) (hm : method ≠ "POST") :
    ∀ (script : List SEntry) (a : Nat) (excl : List String) (st : GState),
      countProxied (runCall method now none a excl st script).2.1 +
        min a MAX_PROXY_RETRIES ≤ MAX_PROXY_RETRIES := by
  intro script
  induction script with
  | nil =>
    intro a excl st
    simp only [runCall, countProxied, MAX_PROXY_RETRIES]
    omega
  | cons e rest ih =>
    intro a excl st
    obtain ⟨sel, res⟩ := e
    simp only [MAX_PROXY_RETRIES] at ih ⊢
    by_cases hex : (3 : Nat) < a + 1
    · simp [runCall, MAX_PROXY_RETRIES, hex, countProxied]
    · cases sel with
      | none =>
        simp [runCall, MAX_PROXY_RETRIES, hex, countProxied]
      | some ep =>
        cases res with
        | ok status lat =>
          by_cases h200 : status = 200
          · subst h200
            simp [runCall, MAX_PROXY_RETRIES, hex, countProxied]
            omega
          · by_cases h405 : status = 405
            · subst h405
              by_cases htrip : MAX_405_ERRORS ≤ st.http405Count + 1
              · cases rest with
                | nil =>
                  simp [runCall, MAX_PROXY_RETRIES, hex, h200, htrip, countProxied]
                  omega
                | cons d rest2 =>
                  simp [runCall, MAX_PROXY_RETRIES, hex, h200, htrip, countProxied]
                  omega
              · have hih := ih (a + 1) (excl ++ [ep.proxy])
                  { st with http405Count := st.http405Count + 1,
                            stats := updateProxyStats st.stats ep.proxy false lat false now }
                simp [runCall, MAX_PROXY_RETRIES, hex, h200, htrip, hm, countProxied]
                omega
            · have hih := ih (a + 1) (excl ++ [ep.proxy])
                { st with stats := updateProxyStats st.stats ep.proxy false lat false now }
              simp [runCall, MAX_PROXY_RETRIES, hex, h200, h405, countProxied]
              omega
        | nerr msg lat =>
          have hih := ih (a + 1) (excl ++ [ep.proxy])
            { st with stats := updateProxyStats st.stats ep.proxy false lat false now }
          simp [runCall, MAX_PROXY_RETRIES, hex, countProxied]
          omega
        | tmo lat =>
          have hih := ih (a + 1) (excl ++ [ep.proxy])
            { st with stats := updateProxyStats st.stats ep.proxy false lat false now }
          simp [runCall, MAX_PROXY_RETRIES, hex, countProxied]
          omega

/-- C2 counterexample: a POST call answered by five straight HTTP 405
responses performs five proxied dispatches inside a single attempt slot
(the 405 POST-to-GET reissues consume no slot), exceeding the
MAX_PROXY_RETRIES = 3 bound the claim places on proxied dispatches. -/
theorem c2_counterexample :
    MAX_PROXY_RETRIES = 3 ∧
    countProxied (makeProxyRequest "POST" 0 gs0 c2script).2.1 = 5 ∧
    countDirect (makeProxyRequest "POST" 0 gs0 c2script).2.1 = 1 ∧
    (makeProxyRequest "POST" 0 gs0 c2script).2.2 = some (.resolved 200) := by
  decide

/-- C2 amended: every call performs at most one direct fallback dispatch,
and for non-POST methods at most MAX_PROXY_RETRIES proxied dispatches; a
POST call can exceed the proxied bound only through HTTP-405 POST-to-GET
reissues against the already-selected endpoint, which do not consume
attempt slots. -/
theorem c2_amended (method : String) (now : Int) (st : GState) (script : List SEntry) :
    countDirect (makeProxyRequest method now st script).2.1 ≤ 1 ∧
    (method ≠ "POST" →
      countProxied (makeProxyRequest method now st script).2.1 ≤ MAX_PROXY_RETRIES) := by
  constructor
  · cases hen : st.enabled
    · cases script with
      | nil => simp [makeProxyRequest, hen, countDirect]
      | cons e rest => simp [makeProxyRequest, hen, countDirect]
    · simpa [makeProxyRequest, hen] using countDirect_le_one method now script none 0 [] st
  · intro hm
    cases hen : st.enabled
    · cases script with
      | nil => simp [makeProxyRequest, hen, countProxied]
      | cons e rest => simp [makeProxyRequest, hen, countProxied]
    · have h := countProxied_le method now hm script 0 [] st
      simp [makeProxyRequest, hen]
      omega

theorem c2_amended_witness :
    countDirect (makeProxyRequest "GET" 0 gs0 c2script).2.1 ≤ 1 ∧
    countProxied (makeProxyRequest "GET" 0 gs0 c2script).2.1 ≤ MAX_PROXY_RETRIES :=
  ⟨(c2_amended "GET" 0 gs0 c2script).1,
   (c2_amended "GET" 0 gs0 c2script).2 (by decide)⟩

/-- C9 counterexample: two exhausted calls whose last proxy errors and
direct-fallback errors differ ("e3" and "ETIMEDOUT" versus "gamma" and a
timeout) both reject with the identical constant message, so the surfaced
error carries neither the last proxy error nor the direct error. -/
theorem c9_counterexample :
    (makeProxyRequest "GET" 0 gs0
        [{ sel := some epA, res := .nerr "ECONNRESET" 5 },
         { sel := some epA, res := .nerr "e2" 5 },
         { sel := some epA, res := .nerr "e3" 5 },
         { sel := none, res := .nerr "ETIMEDOUT" 5 }]).2.2 =
      some (.rejected "All proxy attempts and direct request failed") ∧
    (makeProxyRequest "GET" 0 gs0
        [{ sel := some epA, res := .nerr "alpha" 1 },
         { sel := some epA, res := .nerr "beta" 1 },
         { sel := some epA, res := .nerr "gamma" 1 },
         { sel := none, res := .tmo 9 }]).2.2 =
      some (.rejected "All proxy attempts and direct request failed") := by
  decide

/-- C9 amended: when all three proxied attempts fail with transport errors
and the final direct fallback also fails, the call rejects with the fixed
message "All proxy attempts and direct request failed", independent of the
underlying proxy and direct errors: nothing is aggregated into it. -/
theorem c9_amended (method : String) (now : Int) (st : GState) (hEn : st.enabled = true)
    (p1 p2 p3 : Endpoint) (s4 : Option Endpoint) (r1 r2 r3 r4 : Res)
    (h1 : isNetFail r1 = true) (h2 : isNetFail r2 = true)
    (h3 : isNetFail r3 = true) (h4 : isNetFail r4 = true) :
    (makeProxyRequest method now st
        [{ sel := some p1, res := r1 }, { sel := some p2, res := r2 },
         { sel := some p3, res := r3 }, { sel := s4, res := r4 }]).2.2 =
      some (.rejected "All proxy attempts and direct request failed") := by
  cases r1 <;> cases r2 <;> cases r3 <;> cases r4 <;>
    simp_all [makeProxyRequest, runCall, exhaustRes, isNetFail, MAX_PROXY_RETRIES]

theorem c9_amended_witness :
    (makeProxyRequest "GET" 0 gs0
        [{ sel := some epA, res := .nerr "last proxy error" 5 },
         { sel := some epA, res := .nerr "x" 5 },
         { sel := some epA, res := .nerr "y" 5 },
         { sel := none, res := .tmo 9 }]).2.2 =
      some (.rejected "All proxy attempts and direct request failed") :=
  c9_amended "GET" 0 gs0 rfl epA epA epA none
    (.nerr "last proxy error" 5) (.nerr "x" 5) (.nerr "y" 5) (.tmo 9)
    rfl rfl rfl rfl

theorem disabled_skip (method : String) (now : Int) (st : GState) (e : SEntry)
    (rest : List SEntry) (hoff : st.enabled = false) :
    makeProxyRequest method now st (e :: rest) =
      (st, [Ev.direct e.res], some (disabledRes e.res)) := by
  simp [makeProxyRequest, hoff]

theorem trip_on_fifth (method : String) (now lat : Int) (st : GState) (a : Nat)
    (excl : List String) (ep : Endpoint) (rest : List SEntry)
    (ha : a + 1 ≤ MAX_PROXY_RETRIES) (hc : st.http405Count = 4) :
    (runCall method now none a excl st
        ({ sel := some ep, res := .ok 405 lat } :: rest)).1.enabled = false := by
  have h1 : ¬ MAX_PROXY_RETRIES < a + 1 := by omega
  cases rest with
  | nil => simp [runCall, h1, hc, MAX_405_ERRORS]
  | cons d rest2 => simp [runCall, h1, hc, MAX_405_ERRORS]

theorem reset_on_200 (method : String) (now lat : Int) (st : GState) (a : Nat)
    (excl : List String) (ep : Endpoint) (rest : List SEntry)
    (ha : a + 1 ≤ MAX_PROXY_RETRIES) :
    (runCall method now none a excl st
        ({ sel := some ep, res := .ok 200 lat } :: rest)).1.http405Count = 0 ∧
    (runCall method now none a excl st
        ({ sel := some ep, res := .ok 200 lat } :: rest)).2.2 = some (.resolved 200) := by
  have h1 : ¬ MAX_PROXY_RETRIES < a + 1 := by omega
  constructor <;> simp [runCall, h1]

theorem GState_http405_mk (en : Bool) (c : Nat) (sm : StatsMap) :
    GState.http405Count { enabled := en, http405Count := c, stats := sm } = c := rfl

theorem no_trip_below (method : String) (now : Int) :
    ∀ (script : List SEntry) (pending : Option String) (a : Nat)
      (excl : List String) (st : GState),
      st.enabled = true →
      st.http405Count +
        count405 (runCall method now pending a excl st script).2.1 < MAX_405_ERRORS →
      (runCall method now pending a excl st script).1.enabled = true := by
  intro script
  induction script with
  | nil =>
    intro pending a excl st hen hlt
    simpa [runCall] using hen
  | cons e rest ih =>
    intro pending a excl st hen hlt
    obtain ⟨sel, res⟩ := e
    cases pending with
    | none =>
      by_cases hex : MAX_PROXY_RETRIES < a + 1
      · simpa [runCall, hex] using hen
      · cases sel with
        | none => simpa [runCall, hex] using hen
        | some ep =>
          cases res with
          | ok status lat =>
            by_cases h200 : status = 200
            · subst h200
              simpa [runCall, hex] using hen
            · by_cases h405 : status = 405
              · subst h405
                by_cases h4 : 4 ≤ st.http405Count
                · exfalso
                  cases rest with
                  | nil =>
                    simp [runCall, hex, h200, h4, count405, is405, MAX_405_ERRORS] at hlt
                    omega
                  | cons d rest2 =>
                    simp [runCall, hex, h200, h4, count405, is405, MAX_405_ERRORS] at hlt
                    omega
                · by_cases hpost : method = "POST"
                  · subst hpost
                    simp [runCall, hex, h200, h4, count405, is405,
                          MAX_405_ERRORS] at hlt ⊢
                    have hrec := ih (some ep.proxy) (a + 1) excl
                      { enabled := st.enabled, http405Count := st.http405Count + 1,
                        stats := updateProxyStats st.stats ep.proxy false lat false now } hen
                    exact hrec (by simp [MAX_405_ERRORS, GState_http405_mk]; omega)
                  · simp [runCall, hex, h200, h4, hpost, count405, is405,
                          MAX_405_ERRORS] at hlt ⊢
                    have hrec := ih none (a + 1) (excl ++ [ep.proxy])
                      { enabled := st.enabled, http405Count := st.http405Count + 1,
                        stats := updateProxyStats st.stats ep.proxy false lat false now } hen
                    exact hrec (by simp [MAX_405_ERRORS, GState_http405_mk]; omega)
              · simp [runCall, hex, h200, h405, count405, is405, MAX_405_ERRORS] at hlt ⊢
                have hrec := ih none (a + 1) (excl ++ [ep.proxy])
                  { enabled := st.enabled, http405Count := st.http405Count,
                    stats := updateProxyStats st.stats ep.proxy false lat false now } hen
                exact hrec (by simp [MAX_405_ERRORS, GState_http405_mk]; omega)
          | nerr msg lat =>
            simp [runCall, hex, count405, is405, MAX_405_ERRORS] at hlt ⊢
            have hrec := ih none (a + 1) (excl ++ [ep.proxy])
              { enabled := st.enabled, http405Count := st.http405Count,
                stats := updateProxyStats st.stats ep.proxy false lat false now } hen
            exact hrec (by simp [MAX_405_ERRORS, GState_http405_mk]; omega)
          | tmo lat =>
            simp [runCall, hex, count405, is405, MAX_405_ERRORS] at hlt ⊢
            have hrec := ih none (a + 1) (excl ++ [ep.proxy])
              { enabled := st.enabled, http405Count := st.http405Count,
                stats := updateProxyStats st.stats ep.proxy false lat false now } hen
            exact hrec (by simp [MAX_405_ERRORS, GState_http405_mk]; omega)
    | some key =>
      cases res with
      | ok status lat =>
        by_cases h200 : status = 200
        · subst h200
          simpa [runCall] using hen
        · by_cases h405 : status = 405
          · subst h405
            by_cases h4 : 4 ≤ st.http405Count
            · exfalso
              cases rest with
              | nil =>
                simp [runCall, h200, h4, count405, is405, MAX_405_ERRORS] at hlt
                omega
              | cons d rest2 =>
                simp [runCall, h200, h4, count405, is405, MAX_405_ERRORS] at hlt
                omega
            · by_cases hpost : method = "POST"
              · subst hpost
                simp [runCall, h200, h4, count405, is405, MAX_405_ERRORS] at hlt ⊢
                have hrec := ih (some key) a excl
                  { enabled := st.enabled, http405Count := st.http405Count + 1,
                    stats := updateProxyStats st.stats key false lat false now } hen
                exact hrec (by simp [MAX_405_ERRORS, GState_http405_mk]; omega)
              · simp [runCall, h200, h4, hpost, count405, is405, MAX_405_ERRORS] at hlt ⊢
                have hrec := ih none a (excl ++ [key])
                  { enabled := st.enabled, http405Count := st.http405Count + 1,
                    stats := updateProxyStats st.stats key false lat false now } hen
                exact hrec (by simp [MAX_405_ERRORS, GState_http405_mk]; omega)
          · simp [runCall, h200, h405, count405, is405, MAX_405_ERRORS] at hlt ⊢
            have hrec := ih none a (excl ++ [key])
              { enabled := st.enabled, http405Count := st.http405Count,
                stats := updateProxyStats st.stats key false lat false now } hen
            exact hrec (by simp [MAX_405_ERRORS, GState_http405_mk]; omega)
      | nerr msg lat =>
        simp [runCall, count405, is405, MAX_405_ERRORS] at hlt ⊢
        have hrec := ih none a (excl ++ [key])
          { enabled := st.enabled, http405Count := st.http405Count,
            stats := updateProxyStats st.stats key false lat false now } hen
        exact hrec (by simp [MAX_405_ERRORS, GState_http405_mk]; omega)
      | tmo lat =>
        simp [runCall, count405, is405, MAX_405_ERRORS] at hlt ⊢
        have hrec := ih none a (excl ++ [key])
          { enabled := st.enabled, http405Count := st.http405Count,
            stats := updateProxyStats st.stats key false lat false now } hen
        exact hrec (by simp [MAX_405_ERRORS, GState_http405_mk]; omega)

/-- C3 counterexample: an HTTP 201 outcome — a successful (2xx) outcome in
the claim's sense — does not reset the global 405 streak: starting from a
streak of 3, the streak is still 3 after the dispatch (and the call does
not even resolve with the 201). -/
theorem c3_counterexample :
    (runCall "GET" 0 none 0 [] gs3
        [{ sel := some epA, res := Res.ok 201 9 }]).1.http405Count = 3 ∧
    (runCall "GET" 0 none 0 [] gs3
        [{ sel := some epA, res := Res.ok 201 9 }]).2.2 = none := by
  decide

/-- C3 amended: (1) while the circuit is disabled every call skips proxy
selection and performs a single direct dispatch; (2) the fifth HTTP 405
outcome since the last reset (streak 4 plus one more 405, from any
endpoint, in any call) flips enabled to false; (3) the circuit never trips
while fewer than 5 405s have accumulated since the last reset; (4) the
streak resets to 0 exactly on an HTTP 200 outcome — not on other 2xx
statuses, which are handled as failures. -/
theorem c3_amended (method : String) (now : Int) :
    (∀ st e rest, st.enabled = false →
      makeProxyRequest method now st (e :: rest) =
        (st, [Ev.direct e.res], some (disabledRes e.res))) ∧
    (∀ st a excl ep lat rest, a + 1 ≤ MAX_PROXY_RETRIES → st.http405Count = 4 →
      (runCall method now none a excl st
          ({ sel := some ep, res := Res.ok 405 lat } :: rest)).1.enabled = false) ∧
    (∀ st pending a excl script, st.enabled = true →
      st.http405Count +
        count405 (runCall method now pending a excl st script).2.1 < MAX_405_ERRORS →
      (runCall method now pending a excl st script).1.enabled = true) ∧
    (∀ st a excl ep lat rest, a + 1 ≤ MAX_PROXY_RETRIES →
      (runCall method now none a excl st
          ({ sel := some ep, res := Res.ok 200 lat } :: rest)).1.http405Count = 0) :=
  ⟨fun st e rest hoff => disabled_skip method now st e rest hoff,
   fun st a excl ep lat rest ha hc => trip_on_fifth method now lat st a excl ep rest ha hc,
   fun st pending a excl script hen hlt =>
     no_trip_below method now script pending a excl st hen hlt,
   fun st a excl ep lat rest ha => (reset_on_200 method now lat st a excl ep rest ha).1⟩

theorem c3_amended_witness :
    (makeProxyRequest "GET" 0 gsOff [{ sel := some epA, res := Res.ok 200 1 }] =
      (gsOff, [Ev.direct (Res.ok 200 1)], some (disabledRes (Res.ok 200 1)))) ∧
    ((runCall "GET" 0 none 0 [] gs4
        [{ sel := some epA, res := Res.ok 405 7 }]).1.enabled = false) ∧
    ((runCall "GET" 0 none 0 [] gs0
        [{ sel := some epA, res := Res.ok 405 7 }]).1.enabled = true) ∧
    ((runCall "GET" 0 none 0 [] gs3
        [{ sel := some epA, res := Res.ok 200 7 }]).1.http405Count = 0) := by
  refine ⟨?_, ?_, ?_, ?_⟩
  · exact (c3_amended "GET" 0).1 gsOff { sel := some epA, res := Res.ok 200 1 } [] rfl
  · exact (c3_amended "GET" 0).2.1 gs4 0 [] epA 7 [] (by decide) rfl
  · exact (c3_amended "GET" 0).2.2.1 gs0 none 0 []
      [{ sel := some epA, res := Res.ok 405 7 }] rfl (by decide)
  · exact (c3_amended "GET" 0).2.2.2 gs3 0 [] epA 7 [] (by decide)

end AteexProxy
